import Mathlib

/-!
Shallow embedding of the attendance reconciliation engine of
`fastapi-backend/attendance_processor.py` (class `AttendanceProcessor`),
together with the data contracts it consumes (`models.py`, `schemas.py`).

Conventions of the embedding:
* A calendar date is an `Int` counting whole days from an arbitrary epoch
  (Python `date` subtraction yields whole days; `timedelta(days=1)` is `+ 1`).
* A time of day is a `Nat` counting minutes after midnight (`< 1440` for
  values produced by Python `datetime.time`; the bound is carried as a
  hypothesis where a proof needs it).  All times in the source are handled
  at minute granularity, so `int(total_seconds/60)` is exact.
* A `datetime` is a `Timestamp`: a day number plus a minute-of-day.
* SQLAlchemy query results (`.first()`, `.all()`, `order_by`) become
  `List.find?`, `List.filter` and a merge sort on the in-memory database
  state `Db`; session mutation becomes explicit state passing `Db → Db`.
* Constructing a SQLAlchemy model instance sets only the attributes passed
  as keyword arguments; the `for key, value in summary.__dict__.items()`
  overlay loops in the `_create_*_summary` methods therefore copy exactly
  the constructor-passed fields onto an existing row, while column
  defaults (`presence_duration = 0`, …) apply only when a fresh row is
  inserted.  Each overlay function below copies exactly the fields of the
  corresponding constructor call in the source.
-/

namespace Attendance

/-- A `datetime.datetime` at minute granularity: day number and
minute-of-day. -/
structure Timestamp where
  day : Int
  tod : Nat
  deriving Repr, DecidableEq, Inhabited

/-- Total minutes from the epoch, used to compare and subtract datetimes. -/
def Timestamp.toMin (t : Timestamp) : Int := t.day * 1440 + t.tod

/-- `models.Shift`: two optional work intervals plus logging parameters. -/
structure Shift where
  id : Nat
  start_time_1 : Nat
  end_time_1 : Nat
  start_time_2 : Option Nat
  end_time_2 : Option Nat
  allowed_log_start_time : Nat
  float_duration_minutes : Int
  deriving Repr, DecidableEq, Inhabited

/-- `models.Calendar` (only the key is relevant to the processor). -/
structure Calendar where
  id : Nat
  deriving Repr, DecidableEq, Inhabited

/-- `models.Holiday`: a dated holiday in one calendar. -/
structure Holiday where
  id : Nat
  date : Int
  name : String
  calendar_id : Nat
  deriving Repr, DecidableEq, Inhabited

/-- `models.WorkGroup` with its `calendar` relationship inlined, exactly the
fields `_process_personnel_attendance` and `_get_shift_for_date` read. -/
structure WorkGroup where
  id : Nat
  repetition_period_days : Int
  calendar : Calendar
  start_date : Int
  deriving Repr, DecidableEq, Inhabited

/-- `models.WorkGroupShift` with the `shift` relationship inlined. -/
structure WorkGroupShift where
  id : Nat
  work_group_id : Nat
  day_of_cycle : Int
  shift : Shift
  deriving Repr, DecidableEq, Inhabited

/-- `models.Personnel`, with the `work_group` relationship inlined and the
datetime employment bounds reduced to their `.date()` day numbers. -/
structure Personnel where
  id : Nat
  start_date : Int
  end_date : Option Int
  work_group : Option WorkGroup
  is_active : Bool
  deriving Repr, DecidableEq, Inhabited

/-- `models.AttendanceLog`: one punch. -/
structure AttendanceLog where
  id : Nat
  personnel_id : Nat
  timestamp : Timestamp
  is_processed : Bool
  deriving Repr, DecidableEq, Inhabited

/-- `models.LeaveType` (fields read by the processor). -/
structure LeaveType where
  id : Nat
  name : String
  counts_as_work : Bool
  deriving Repr, DecidableEq, Inhabited

/-- `models.LeaveRequest` with the `leave_type` relationship inlined. -/
structure LeaveRequest where
  id : Nat
  personnel_id : Nat
  leave_type : LeaveType
  start_date : Int
  end_date : Int
  start_time : Option Nat
  end_time : Option Nat
  is_hourly : Bool
  status : String
  deriving Repr, DecidableEq, Inhabited

/-- `models.MissionType` (fields read by the processor). -/
structure MissionType where
  id : Nat
  name : String
  counts_as_work : Bool
  deriving Repr, DecidableEq, Inhabited

/-- `models.MissionRequest` with the `mission_type` relationship inlined. -/
structure MissionRequest where
  id : Nat
  personnel_id : Nat
  mission_type : MissionType
  start_date : Int
  end_date : Int
  start_time : Option Nat
  end_time : Option Nat
  is_hourly : Bool
  status : String
  destination : String
  deriving Repr, DecidableEq, Inhabited

/-- `models.DailySummary`: the per-(person, date) output row. -/
structure DailySummary where
  personnel_id : Nat
  date : Int
  shift_id : Option Nat
  presence_duration : Int
  tardiness_duration : Int
  overtime_duration : Int
  undertime_duration : Int
  absent : Bool
  status : String
  first_entry_time : Option Timestamp
  last_exit_time : Option Timestamp
  expected_work_duration : Int
  notes : Option String
  deriving Repr, DecidableEq, Inhabited

/-- Column defaults of `daily_summaries` (`models.py`), applied when a fresh
row is inserted without an explicit value for a column. -/
def defaultSummary (pid : Nat) (d : Int) : DailySummary where
  personnel_id := pid
  date := d
  shift_id := none
  presence_duration := 0
  tardiness_duration := 0
  overtime_duration := 0
  undertime_duration := 0
  absent := false
  status := "OK"
  first_entry_time := none
  last_exit_time := none
  expected_work_duration := 0
  notes := none

/-- The in-memory database state seen through the SQLAlchemy session. -/
structure Db where
  personnel : List Personnel
  holidays : List Holiday
  leaveRequests : List LeaveRequest
  missionRequests : List MissionRequest
  workGroupShifts : List WorkGroupShift
  attendanceLogs : List AttendanceLog
  dailySummaries : List DailySummary
  deriving Repr, DecidableEq, Inhabited

/-- `schemas.AttendanceProcessingRequest`. -/
structure AttendanceProcessingRequest where
  start_date : Int
  end_date : Int
  personnel_ids : Option (List Nat)
  force_reprocess : Bool
  deriving Repr, DecidableEq, Inhabited

/-- `schemas.AttendanceProcessingResponse`. -/
structure AttendanceProcessingResponse where
  processed_days : Nat
  processed_personnel : Nat
  errors : List String
  warnings : List String
  deriving Repr, DecidableEq, Inhabited

/-- `_time_diff_minutes`: difference between two times of day in minutes,
adding a day when the end falls clock-wise before the start. -/
def timeDiffMinutes (s e : Nat) : Int :=
  if e < s then (e : Int) + 1440 - s else (e : Int) - s

/-- `_datetime_diff_minutes`: difference between two datetimes in minutes. -/
def datetimeDiffMinutes (s e : Timestamp) : Int :=
  e.toMin - s.toMin

/-- `_pair_logs`: pair consecutive logs positionally, two at a time; an odd
trailing log is never paired. -/
def pairLogs : List AttendanceLog → List (AttendanceLog × AttendanceLog)
  | a :: b :: rest => (a, b) :: pairLogs rest
  | _ => []

/-- The result dictionary built by `_calculate_attendance_times`. -/
structure CalcResult where
  first_entry_time : Option Timestamp
  last_exit_time : Option Timestamp
  presence_duration : Int
  tardiness_duration : Int
  overtime_duration : Int
  undertime_duration : Int
  absent : Bool
  status : String
  expected_work_duration : Int
  notes : Option String
  deriving Repr, DecidableEq, Inhabited

/-- The initial result dictionary of `_calculate_attendance_times`. -/
def CalcResult.init : CalcResult where
  first_entry_time := none
  last_exit_time := none
  presence_duration := 0
  tardiness_duration := 0
  overtime_duration := 0
  undertime_duration := 0
  absent := false
  status := "OK"
  expected_work_duration := 0
  notes := none

/-- `_calculate_attendance_times`: classify one day's ordered punches
against a shift. -/
def calculateAttendanceTimes (logs : List AttendanceLog) (shift : Shift) :
    CalcResult :=
  match logs with
  | [] => { CalcResult.init with absent := true, status := "Absent" }
  | l0 :: rest =>
    let lastLog := (l0 :: rest).getLast (List.cons_ne_nil l0 rest)
    let work_duration_1 := timeDiffMinutes shift.start_time_1 shift.end_time_1
    let expected :=
      match shift.start_time_2, shift.end_time_2 with
      | some s2, some e2 => work_duration_1 + timeDiffMinutes s2 e2
      | _, _ => work_duration_1
    let presence :=
      if 2 ≤ (l0 :: rest).length then
        ((pairLogs (l0 :: rest)).map fun p =>
          datetimeDiffMinutes p.1.timestamp p.2.timestamp).sum
      else 0
    let tardiness :=
      if shift.allowed_log_start_time < l0.timestamp.tod then
        max 0 (timeDiffMinutes shift.allowed_log_start_time l0.timestamp.tod
          - shift.float_duration_minutes)
      else 0
    let expected_end := shift.end_time_2.getD shift.end_time_1
    let overtime :=
      if expected_end < lastLog.timestamp.tod then
        timeDiffMinutes expected_end lastLog.timestamp.tod
      else 0
    let undertime := if presence < expected then expected - presence else 0
    let oddCount := (l0 :: rest).length % 2 ≠ 0
    { first_entry_time := some l0.timestamp
      last_exit_time := some lastLog.timestamp
      presence_duration := presence
      tardiness_duration := tardiness
      overtime_duration := overtime
      undertime_duration := undertime
      absent := false
      status := if oddCount then "IncompleteLog" else "OK"
      expected_work_duration := expected
      notes := if oddCount then some "Odd number of attendance logs" else none }

/-- Rewrite the first list element satisfying `p` with `g`, leaving the rest
alone — the effect of mutating the row returned by `.first()`. -/
def updateFirst (p : α → Bool) (g : α → α) : List α → List α
  | [] => []
  | x :: xs => if p x then g x :: xs else x :: updateFirst p g xs

/-- The `.first()` lookup used by every summary query:
`DailySummary.personnel_id == pid, DailySummary.date == d`. -/
def summaryKey (pid : Nat) (d : Int) (s : DailySummary) : Bool :=
  s.personnel_id == pid && s.date == d

/-- Look up the existing daily summary row for `(pid, d)`. -/
def findSummary (db : Db) (pid : Nat) (d : Int) : Option DailySummary :=
  db.dailySummaries.find? (summaryKey pid d)

/-- The `if existing: overlay else: db.add(summary)` tail shared by every
`_create_*_summary` method: `overlay` copies exactly the constructor-passed
fields onto the existing row; `fresh` is the inserted row with column
defaults filled in for unset fields. -/
def upsertSummary (db : Db) (pid : Nat) (d : Int)
    (overlay : DailySummary → DailySummary) (fresh : DailySummary) : Db :=
  if (findSummary db pid d).isSome then
    { db with dailySummaries := updateFirst (summaryKey pid d) overlay db.dailySummaries }
  else
    { db with dailySummaries := db.dailySummaries ++ [fresh] }

/-- `_create_holiday_summary`: the constructor passes only `personnel_id`,
`date`, `status` and `notes`, so only those four attributes exist on the new
instance and only they are overlaid onto an existing row. -/
def createHolidaySummary (db : Db) (personnel : Personnel) (target_date : Int)
    (holiday : Holiday) : Db :=
  let status := "Holiday"
  let notes := some ("Holiday: " ++ holiday.name)
  upsertSummary db personnel.id target_date
    (fun s => { s with personnel_id := personnel.id, date := target_date,
                       status := status, notes := notes })
    { defaultSummary personnel.id target_date with status := status, notes := notes }

/-- `_create_no_shift_summary`: same shape as the holiday summary. -/
def createNoShiftSummary (db : Db) (personnel : Personnel) (target_date : Int) : Db :=
  let status := "NoShift"
  let notes := some "No shift assigned for this day"
  upsertSummary db personnel.id target_date
    (fun s => { s with personnel_id := personnel.id, date := target_date,
                       status := status, notes := notes })
    { defaultSummary personnel.id target_date with status := status, notes := notes }

/-- `_create_or_update_daily_summary`: the constructor passes every computed
field, so the overlay rewrites all of them. -/
def createOrUpdateDailySummary (db : Db) (personnel : Personnel)
    (target_date : Int) (shift : Shift) (result : CalcResult) : Db :=
  let fields : DailySummary :=
    { personnel_id := personnel.id
      date := target_date
      shift_id := some shift.id
      presence_duration := result.presence_duration
      tardiness_duration := result.tardiness_duration
      overtime_duration := result.overtime_duration
      undertime_duration := result.undertime_duration
      absent := result.absent
      status := result.status
      first_entry_time := result.first_entry_time
      last_exit_time := result.last_exit_time
      expected_work_duration := result.expected_work_duration
      notes := result.notes }
  upsertSummary db personnel.id target_date (fun _ => fields) fields

/-- `_create_leave_summary`: duration, status and notes depend on the hourly
flag; presence on `leave_type.counts_as_work`. The constructor does not pass
`shift_id`, `first_entry_time` or `last_exit_time`. -/
def createLeaveSummary (db : Db) (personnel : Personnel) (target_date : Int)
    (leave_request : LeaveRequest) : Db :=
  let hourly :=
    leave_request.is_hourly && leave_request.start_time.isSome &&
      leave_request.end_time.isSome
  let leave_duration :=
    if hourly then
      timeDiffMinutes (leave_request.start_time.getD 0) (leave_request.end_time.getD 0)
    else 480
  let status := if hourly then "PartialLeave" else "OnLeave"
  let notes :=
    if hourly then
      some ("Hourly leave: " ++ leave_request.leave_type.name ++ " (" ++
        toString leave_duration ++ " minutes)")
    else some ("Daily leave: " ++ leave_request.leave_type.name)
  let presence_duration :=
    if leave_request.leave_type.counts_as_work then leave_duration else 0
  upsertSummary db personnel.id target_date
    (fun s => { s with personnel_id := personnel.id, date := target_date,
                       presence_duration := presence_duration,
                       tardiness_duration := 0, overtime_duration := 0,
                       undertime_duration := 0, absent := false,
                       status := status,
                       expected_work_duration := leave_duration, notes := notes })
    { defaultSummary personnel.id target_date with
        presence_duration := presence_duration, absent := false,
        status := status, expected_work_duration := leave_duration, notes := notes }

/-- `_create_mission_summary`: the mission counterpart of the leave summary. -/
def createMissionSummary (db : Db) (personnel : Personnel) (target_date : Int)
    (mission_request : MissionRequest) : Db :=
  let hourly :=
    mission_request.is_hourly && mission_request.start_time.isSome &&
      mission_request.end_time.isSome
  let mission_duration :=
    if hourly then
      timeDiffMinutes (mission_request.start_time.getD 0) (mission_request.end_time.getD 0)
    else 480
  let status := if hourly then "PartialMission" else "OnMission"
  let notes :=
    if hourly then
      some ("Hourly mission: " ++ mission_request.mission_type.name ++ " to " ++
        mission_request.destination ++ " (" ++ toString mission_duration ++ " minutes)")
    else some ("Daily mission: " ++ mission_request.mission_type.name ++ " to " ++
      mission_request.destination)
  let presence_duration :=
    if mission_request.mission_type.counts_as_work then mission_duration else 0
  upsertSummary db personnel.id target_date
    (fun s => { s with personnel_id := personnel.id, date := target_date,
                       presence_duration := presence_duration,
                       tardiness_duration := 0, overtime_duration := 0,
                       undertime_duration := 0, absent := false,
                       status := status,
                       expected_work_duration := mission_duration, notes := notes })
    { defaultSummary personnel.id target_date with
        presence_duration := presence_duration, absent := false,
        status := status, expected_work_duration := mission_duration, notes := notes }

/-- `_get_shift_for_date`, first half: the 1-based day of cycle.  Lean's `%`
on `Int` agrees with Python's floor modulo for a positive divisor. -/
def dayOfCycle (work_group : WorkGroup) (target_date : Int) : Int :=
  (target_date - work_group.start_date) % work_group.repetition_period_days + 1

/-- `_get_shift_for_date`: resolve the cyclic shift assignment. -/
def getShiftForDate (db : Db) (work_group : WorkGroup) (target_date : Int) :
    Option Shift :=
  (db.workGroupShifts.find? fun a =>
    a.work_group_id == work_group.id &&
      a.day_of_cycle == dayOfCycle work_group target_date).map (·.shift)

/-- Insert a punch into a timestamp-ascending list. -/
def insertLog (a : AttendanceLog) : List AttendanceLog → List AttendanceLog
  | [] => [a]
  | b :: bs =>
    if a.timestamp.toMin ≤ b.timestamp.toMin then a :: b :: bs
    else b :: insertLog a bs

/-- The `order_by(AttendanceLog.timestamp)` of the day-log query: sort the
punches by ascending timestamp (insertion sort). -/
def sortLogs : List AttendanceLog → List AttendanceLog
  | [] => []
  | a :: as => insertLog a (sortLogs as)

/-- `_get_day_logs`: the day's punches for one person, ordered by timestamp. -/
def getDayLogs (db : Db) (personnel_id : Nat) (target_date : Int) :
    List AttendanceLog :=
  sortLogs (db.attendanceLogs.filter fun l =>
    l.personnel_id == personnel_id && l.timestamp.day == target_date)

/-- The `for log in logs: log.is_processed = True` loop: the fetched rows are
the session's rows, so the flag is set on the matching database rows. -/
def markLogsProcessed (db : Db) (personnel_id : Nat) (target_date : Int) : Db :=
  { db with attendanceLogs := db.attendanceLogs.map fun l =>
      if l.personnel_id == personnel_id && l.timestamp.day == target_date then
        { l with is_processed := true }
      else l }

/-- The `.first()` holiday lookup of `_process_personnel_day`. -/
def findHoliday (db : Db) (calendar : Calendar) (target_date : Int) :
    Option Holiday :=
  db.holidays.find? fun h => h.calendar_id == calendar.id && h.date == target_date

/-- The `.first()` approved-leave lookup of `_process_personnel_day`. -/
def findLeave (db : Db) (personnel : Personnel) (target_date : Int) :
    Option LeaveRequest :=
  db.leaveRequests.find? fun lr =>
    lr.personnel_id == personnel.id && lr.status == "approved" &&
      decide (lr.start_date ≤ target_date) && decide (target_date ≤ lr.end_date)

/-- The `.first()` approved-mission lookup of `_process_personnel_day`. -/
def findMission (db : Db) (personnel : Personnel) (target_date : Int) :
    Option MissionRequest :=
  db.missionRequests.find? fun mr =>
    mr.personnel_id == personnel.id && mr.status == "approved" &&
      decide (mr.start_date ≤ target_date) && decide (target_date ≤ mr.end_date)

/-- `_process_personnel_day`: classify and summarize one (person, date);
the branches are tried in source order and each one returns. -/
def processPersonnelDay (db : Db) (personnel : Personnel) (work_group : WorkGroup)
    (calendar : Calendar) (target_date : Int) : Db :=
  match findHoliday db calendar target_date with
  | some holiday => createHolidaySummary db personnel target_date holiday
  | none =>
  match findLeave db personnel target_date with
  | some leave_request => createLeaveSummary db personnel target_date leave_request
  | none =>
  match findMission db personnel target_date with
  | some mission_request => createMissionSummary db personnel target_date mission_request
  | none =>
  match getShiftForDate db work_group target_date with
  | none => createNoShiftSummary db personnel target_date
  | some shift =>
    let logs := getDayLogs db personnel.id target_date
    let result := calculateAttendanceTimes logs shift
    let db := createOrUpdateDailySummary db personnel target_date shift result
    markLogsProcessed db personnel.id target_date

/-- The inclusive day range walked by the `while current_date <= end_date`
loop of `_process_personnel_attendance`. -/
def dateRange (s e : Int) : List Int :=
  (List.range (e - s + 1).toNat).map fun i => s + i

/-- The `personnel.end_date and current_date > personnel.end_date.date()`
test of the per-day loop. -/
def afterEnd (personnel : Personnel) (d : Int) : Bool :=
  match personnel.end_date with
  | some e => decide (e < d)
  | none => false

/-- One iteration of the per-day loop of `_process_personnel_attendance`:
skip days outside the employment window, skip already-summarized days unless
`force_reprocess`, otherwise process the day and count it. -/
def stepDay (personnel : Personnel) (work_group : WorkGroup) (calendar : Calendar)
    (force_reprocess : Bool) (acc : Db × Nat) (d : Int) : Db × Nat :=
  if d < personnel.start_date then acc
  else if afterEnd personnel d then acc
  else if (findSummary acc.1 personnel.id d).isSome && !force_reprocess then acc
  else (processPersonnelDay acc.1 personnel work_group calendar d, acc.2 + 1)

/-- `_process_personnel_attendance`: walk the day range for one person.
Returns the updated state and the processed-day count; when the person has
no work group, it emits the logger warning and returns zero days. -/
def processPersonnelAttendance (db : Db) (personnel : Personnel)
    (start_date end_date : Int) (force_reprocess : Bool) :
    Db × Nat × List String :=
  match personnel.work_group with
  | none =>
    (db, 0, ["Personnel " ++ toString personnel.id ++ " has no work group assigned"])
  | some work_group =>
    let r := (dateRange start_date end_date).foldl
      (stepDay personnel work_group work_group.calendar force_reprocess) (db, 0)
    (r.1, r.2, [])

/-- The personnel selection of `process_attendance`: the given ids filtered
to active personnel, or all active personnel when the id list is `None` or
empty (Python truthiness of the optional list). -/
def selectPersonnel (db : Db) (personnel_ids : Option (List Nat)) :
    List Personnel :=
  match personnel_ids with
  | some ids =>
    if ids.isEmpty then db.personnel.filter (·.is_active)
    else db.personnel.filter fun p => ids.contains p.id && p.is_active
  | none => db.personnel.filter (·.is_active)

/-- `process_attendance`: the batch entry point.  Returns the response, the
final state, and the accumulated logger warnings (the `logger.warning`
calls, which never reach the response's `warnings` list). -/
def processAttendance (db : Db) (request : AttendanceProcessingRequest) :
    AttendanceProcessingResponse × Db × List String :=
  let personnel_list := selectPersonnel db request.personnel_ids
  if personnel_list.isEmpty then
    ({ processed_days := 0, processed_personnel := 0,
       errors := ["No active personnel found for processing"], warnings := [] },
     db, [])
  else
    let r := personnel_list.foldl
      (fun acc p =>
        let r1 := processPersonnelAttendance acc.1 p
          request.start_date request.end_date request.force_reprocess
        (r1.1, acc.2.1 + r1.2.1, acc.2.2 ++ r1.2.2))
      (db, 0, ([] : List String))
    ({ processed_days := r.2.1, processed_personnel := personnel_list.length,
       errors := [], warnings := [] }, r.1, r.2.2)

/-! ### Concrete fixtures used to instantiate the theorems -/

/-- A standard 08:00–16:00 shift with a 15-minute float. -/
def exShift : Shift where
  id := 1
  start_time_1 := 480
  end_time_1 := 960
  start_time_2 := none
  end_time_2 := none
  allowed_log_start_time := 480
  float_duration_minutes := 15

/-- A 22:00–06:00 night shift. -/
def exNightShift : Shift where
  id := 2
  start_time_1 := 1320
  end_time_1 := 360
  start_time_2 := none
  end_time_2 := none
  allowed_log_start_time := 1320
  float_duration_minutes := 15

/-- A punch for personnel 7 on day 0 at the given minute-of-day. -/
def exLog (i tod : Nat) : AttendanceLog where
  id := i
  personnel_id := 7
  timestamp := { day := 0, tod := tod }
  is_processed := false

/-- A weekly work group whose cycle starts on day 100. -/
def exWorkGroup : WorkGroup where
  id := 1
  repetition_period_days := 7
  calendar := { id := 1 }
  start_date := 100

/-! ### Helper lemmas about the time arithmetic -/

theorem timeDiffMinutes_of_le {s e : Nat} (h : s ≤ e) :
    timeDiffMinutes s e = (e : Int) - s := by
  unfold timeDiffMinutes
  rw [if_neg (by omega : ¬ e < s)]

theorem timeDiffMinutes_of_lt {s e : Nat} (h : e < s) :
    timeDiffMinutes s e = (e : Int) + 1440 - s := by
  unfold timeDiffMinutes
  rw [if_pos h]

theorem timeDiffMinutes_nonneg {s e : Nat} (hs : s < 1440) :
    0 ≤ timeDiffMinutes s e := by
  unfold timeDiffMinutes
  split <;> omega

/-- C8: for every work group with `repetition_period_days ≥ 1` and every
target date — including dates strictly before the work group's
`start_date` — the shift resolver computes
`day_of_cycle = ((date − start_date) mod repetition_period_days) + 1` with
floor-modulo (never negative) semantics, so `day_of_cycle` always lies in
`[1, repetition_period_days]`. -/
theorem C8_day_of_cycle_floor_mod_bounds (wg : WorkGroup) (d : Int)
    (h : 1 ≤ wg.repetition_period_days) :
    1 ≤ dayOfCycle wg d ∧ dayOfCycle wg d ≤ wg.repetition_period_days ∧
    dayOfCycle wg d = Int.fmod (d - wg.start_date) wg.repetition_period_days + 1 := by
  have hpos : 0 < wg.repetition_period_days := h
  refine ⟨?_, ?_, ?_⟩
  · have := Int.emod_nonneg (d - wg.start_date) (ne_of_gt hpos)
    unfold dayOfCycle
    omega
  · have := Int.emod_lt_of_pos (d - wg.start_date) hpos
    unfold dayOfCycle
    omega
  · unfold dayOfCycle
    rw [Int.fmod_eq_emod _ (le_of_lt hpos)]

theorem C8_witness :
    (1 : Int) ≤ exWorkGroup.repetition_period_days ∧
    (1 ≤ dayOfCycle exWorkGroup 3 ∧
      dayOfCycle exWorkGroup 3 ≤ exWorkGroup.repetition_period_days ∧
      dayOfCycle exWorkGroup 3 =
        Int.fmod (3 - exWorkGroup.start_date) exWorkGroup.repetition_period_days + 1) :=
  ⟨by decide, C8_day_of_cycle_floor_mod_bounds exWorkGroup 3 (by decide)⟩

/-- C6: for every non-empty log list, `expected_work_duration` is the
duration of shift interval 1 plus the duration of interval 2 when both its
bounds are present, where an interval whose end is clock-wise earlier than
its start crosses midnight (24h added to the end before differencing), and
the result is never negative. -/
theorem C6_expected_work_duration_midnight (shift : Shift)
    (logs : List AttendanceLog) (hne : logs ≠ [])
    (h1 : shift.start_time_1 < 1440)
    (h2 : ∀ s2 ∈ shift.start_time_2, s2 < 1440) :
    (calculateAttendanceTimes logs shift).expected_work_duration =
      timeDiffMinutes shift.start_time_1 shift.end_time_1 +
        (match shift.start_time_2, shift.end_time_2 with
         | some s2, some e2 => timeDiffMinutes s2 e2
         | _, _ => 0) ∧
    0 ≤ (calculateAttendanceTimes logs shift).expected_work_duration ∧
    (∀ s e : Nat, e < s → timeDiffMinutes s e = (e : Int) + 1440 - s) := by
  obtain ⟨l0, rest, rfl⟩ := List.exists_cons_of_ne_nil hne
  have key : (calculateAttendanceTimes (l0 :: rest) shift).expected_work_duration =
      timeDiffMinutes shift.start_time_1 shift.end_time_1 +
        (match shift.start_time_2, shift.end_time_2 with
         | some s2, some e2 => timeDiffMinutes s2 e2
         | _, _ => 0) := by
    rcases hs2 : shift.start_time_2 with _ | s2 <;>
      rcases he2 : shift.end_time_2 with _ | e2 <;>
      simp [calculateAttendanceTimes, hs2, he2]
  refine ⟨key, ?_, fun s e h => timeDiffMinutes_of_lt h⟩
  rw [key]
  rcases hs2 : shift.start_time_2 with _ | s2 <;>
    rcases he2 : shift.end_time_2 with _ | e2 <;> simp
  · exact timeDiffMinutes_nonneg h1
  · exact timeDiffMinutes_nonneg h1
  · exact timeDiffMinutes_nonneg h1
  · have hs2lt : s2 < 1440 := h2 s2 (by simp [hs2])
    have := timeDiffMinutes_nonneg (e := shift.end_time_1) h1
    have := timeDiffMinutes_nonneg (e := e2) hs2lt
    omega

theorem C6_witness :
    [exLog 1 1320] ≠ ([] : List AttendanceLog) ∧
    (calculateAttendanceTimes [exLog 1 1320] exNightShift).expected_work_duration
      = 480 := by
  refine ⟨by simp, ?_⟩
  have h := C6_expected_work_duration_midnight exNightShift [exLog 1 1320]
    (by simp) (by decide) (by simp [exNightShift])
  rw [h.1]
  decide

/-- C7: for every non-empty log list, if the first entry's time-of-day is
later than `shift.allowed_log_start_time` then
`tardiness_duration = max 0 (gap − float_duration_minutes)` where the gap is
the time-of-day difference in minutes, and otherwise
`tardiness_duration = 0`. -/
theorem C7_tardiness_float (shift : Shift) (l0 : AttendanceLog)
    (rest : List AttendanceLog) :
    (shift.allowed_log_start_time < l0.timestamp.tod →
      (calculateAttendanceTimes (l0 :: rest) shift).tardiness_duration =
        max 0 ((l0.timestamp.tod : Int) - shift.allowed_log_start_time -
          shift.float_duration_minutes)) ∧
    (¬ shift.allowed_log_start_time < l0.timestamp.tod →
      (calculateAttendanceTimes (l0 :: rest) shift).tardiness_duration = 0) := by
  constructor
  · intro h
    simp [calculateAttendanceTimes, h, timeDiffMinutes_of_le (le_of_lt h)]
  · intro h
    simp [calculateAttendanceTimes, h]

theorem C7_witness :
    (calculateAttendanceTimes [exLog 1 500] exShift).tardiness_duration = 5 ∧
    (calculateAttendanceTimes [exLog 2 490] exShift).tardiness_duration = 0 := by
  have h1 := (C7_tardiness_float exShift (exLog 1 500) []).1 (by decide)
  have h2 := (C7_tardiness_float exShift (exLog 2 490) []).1 (by decide)
  constructor
  · rw [h1]; decide
  · rw [h2]; decide

/-! ### C1: positional pairing of punches -/

/-- The pairing rule as the spec words it: `logs[0]` with `logs[1]`,
`logs[2]` with `logs[3]`, …; with an odd count the floor division drops the
unpaired trailing log.  Stated independently of `pairLogs` so the two can be
compared. -/
def positionalPairs (logs : List AttendanceLog) :
    List (AttendanceLog × AttendanceLog) :=
  (List.range (logs.length / 2)).map fun i =>
    (logs.getD (2 * i) default, logs.getD (2 * i + 1) default)

theorem pairLogs_eq_positionalPairs :
    ∀ logs, pairLogs logs = positionalPairs logs
  | [] => by simp [pairLogs, positionalPairs]
  | [a] => by simp [pairLogs, positionalPairs]
  | a :: b :: t => by
    have ih := pairLogs_eq_positionalPairs t
    have hlen : (a :: b :: t).length / 2 = t.length / 2 + 1 := by
      simp only [List.length_cons]
      omega
    simp only [pairLogs, positionalPairs, hlen, List.range_succ_eq_map,
      List.map_cons, List.map_map, Nat.mul_zero, List.getD_cons_zero,
      Nat.zero_add, List.getD_cons_succ, List.cons.injEq]
    refine ⟨by simp, ?_⟩
    rw [ih]
    unfold positionalPairs
    refine List.map_congr_left fun i _ => ?_
    have h1 : 2 * Nat.succ i = 2 * i + 1 + 1 := by omega
    rw [Function.comp_apply, h1]
    simp [List.getD_cons_succ]

theorem pairLogs_dropLast_of_odd :
    ∀ logs : List AttendanceLog, logs.length % 2 = 1 →
      pairLogs logs.dropLast = pairLogs logs
  | [], h => by simp at h
  | [a], _ => rfl
  | a :: b :: t, h => by
    have ht : t.length % 2 = 1 := by
      simp only [List.length_cons] at h
      omega
    have htne : t ≠ [] := by
      intro he
      rw [he] at ht
      simp at ht
    have ih := pairLogs_dropLast_of_odd t ht
    rw [List.dropLast_cons₂, List.dropLast_cons_of_ne_nil htne]
    show (a, b) :: pairLogs t.dropLast = (a, b) :: pairLogs t
    rw [ih]

/-- C1: for every log list with an odd number of punches, the time
calculator pairs punches strictly by position (`logs[0]` with `logs[1]`,
`logs[2]` with `logs[3]`, …), drops the unpaired trailing log from the
presence sum, sets status `"IncompleteLog"` with an explanatory note, and
still sets `last_exit_time` to the last log's timestamp. -/
theorem C1_odd_logs_incomplete (shift : Shift) (logs : List AttendanceLog)
    (hodd : logs.length % 2 = 1) :
    (calculateAttendanceTimes logs shift).status = "IncompleteLog" ∧
    (calculateAttendanceTimes logs shift).notes =
      some "Odd number of attendance logs" ∧
    (calculateAttendanceTimes logs shift).last_exit_time =
      logs.getLast?.map (·.timestamp) ∧
    (calculateAttendanceTimes logs shift).presence_duration =
      ((positionalPairs logs).map fun pr =>
        datetimeDiffMinutes pr.1.timestamp pr.2.timestamp).sum ∧
    pairLogs logs = pairLogs logs.dropLast := by
  have hne : logs ≠ [] := by
    intro h
    rw [h] at hodd
    simp at hodd
  obtain ⟨l0, rest, rfl⟩ := List.exists_cons_of_ne_nil hne
  refine ⟨?_, ?_, ?_, ?_, (pairLogs_dropLast_of_odd _ hodd).symm⟩
  · simp only [List.length_cons] at hodd
    simp [calculateAttendanceTimes]
    omega
  · simp only [List.length_cons] at hodd
    simp [calculateAttendanceTimes]
    omega
  · rw [List.getLast?_eq_getLast _ hne]
    simp [calculateAttendanceTimes]
  · rcases rest with _ | ⟨l1, rest'⟩
    · simp [calculateAttendanceTimes, positionalPairs]
    · have hge : 2 ≤ (l0 :: l1 :: rest').length := by simp
      simp [calculateAttendanceTimes, hge, pairLogs_eq_positionalPairs]

theorem C1_witness :
    [exLog 1 540, exLog 2 720, exLog 3 780].length % 2 = 1 ∧
    ((calculateAttendanceTimes [exLog 1 540, exLog 2 720, exLog 3 780]
        exShift).status = "IncompleteLog" ∧
      (calculateAttendanceTimes [exLog 1 540, exLog 2 720, exLog 3 780]
        exShift).presence_duration = 180 ∧
      (calculateAttendanceTimes [exLog 1 540, exLog 2 720, exLog 3 780]
        exShift).last_exit_time = some { day := 0, tod := 780 }) := by
  have h := C1_odd_logs_incomplete exShift
    [exLog 1 540, exLog 2 720, exLog 3 780] (by decide)
  refine ⟨by decide, h.1, ?_, ?_⟩
  · rw [h.2.2.2.1]
    decide
  · rw [h.2.2.1]
    decide

/-! ### Lemmas about `updateFirst` and `upsertSummary` -/

theorem find?_updateFirst_self {α : Type} (p : α → Bool) (g : α → α)
    (hpres : ∀ x, p x = true → p (g x) = true) :
    ∀ l : List α, (updateFirst p g l).find? p = (l.find? p).map g
  | [] => rfl
  | x :: xs => by
    by_cases hx : p x = true
    · have : updateFirst p g (x :: xs) = g x :: xs := by
        simp [updateFirst, hx]
      rw [this, List.find?_cons_of_pos _ (hpres x hx),
        List.find?_cons_of_pos _ hx]
      rfl
    · have : updateFirst p g (x :: xs) = x :: updateFirst p g xs := by
        simp [updateFirst, hx]
      rw [this, List.find?_cons_of_neg _ hx, List.find?_cons_of_neg _ hx,
        find?_updateFirst_self p g hpres xs]

theorem find?_updateFirst_other {α : Type} (p q : α → Bool) (g : α → α)
    (h1 : ∀ x, p x = true → q x = false)
    (h2 : ∀ x, p x = true → q (g x) = false) :
    ∀ l : List α, (updateFirst p g l).find? q = l.find? q
  | [] => rfl
  | x :: xs => by
    by_cases hx : p x = true
    · have : updateFirst p g (x :: xs) = g x :: xs := by
        simp [updateFirst, hx]
      rw [this, List.find?_cons_of_neg _ (by simp [h2 x hx]),
        List.find?_cons_of_neg _ (by simp [h1 x hx])]
    · have : updateFirst p g (x :: xs) = x :: updateFirst p g xs := by
        simp [updateFirst, hx]
      rw [this]
      by_cases hq : q x = true
      · rw [List.find?_cons_of_pos _ hq, List.find?_cons_of_pos _ hq]
      · rw [List.find?_cons_of_neg _ hq, List.find?_cons_of_neg _ hq,
          find?_updateFirst_other p q g h1 h2 xs]

theorem find?_append_singleton {α : Type} (q : α → Bool) (l : List α) (x : α) :
    (l ++ [x]).find? q =
      ((l.find? q).or (if q x then some x else none)) := by
  rw [List.find?_append]
  cases hx : q x <;> simp [List.find?, hx]

/-- The overlay functions of all five `_create_*_summary` methods set the
key fields to the target `(pid, d)`. -/
def setsKey (pid : Nat) (d : Int) (g : DailySummary → DailySummary) : Prop :=
  ∀ s, (g s).personnel_id = pid ∧ (g s).date = d

theorem summaryKey_of_eq {pid : Nat} {d : Int} {s : DailySummary}
    (h1 : s.personnel_id = pid) (h2 : s.date = d) :
    summaryKey pid d s = true := by
  simp [summaryKey, h1, h2]

theorem summaryKey_false_of_ne {pid pid' : Nat} {d d' : Int} {s : DailySummary}
    (h1 : s.personnel_id = pid) (h2 : s.date = d)
    (hne : ¬ (pid' = pid ∧ d' = d)) :
    summaryKey pid' d' s = false := by
  simp only [summaryKey, h1, h2, Bool.and_eq_false_iff, beq_eq_false_iff_ne]
  by_cases hp : pid = pid'
  · right
    intro hd
    exact hne ⟨hp.symm, hd.symm⟩
  · left
    exact fun hp' => hp hp'

theorem findSummary_upsertSummary_self (db : Db) (pid : Nat) (d : Int)
    (g : DailySummary → DailySummary) (fresh : DailySummary)
    (hg : setsKey pid d g)
    (hf : fresh.personnel_id = pid) (hf' : fresh.date = d) :
    findSummary (upsertSummary db pid d g fresh) pid d =
      some ((findSummary db pid d).elim fresh g) := by
  unfold upsertSummary
  cases h : findSummary db pid d with
  | some s =>
    rw [if_pos (by simp)]
    unfold findSummary at h ⊢
    show (updateFirst (summaryKey pid d) g db.dailySummaries).find? _ = _
    rw [find?_updateFirst_self _ _
      (fun x _ => summaryKey_of_eq (hg x).1 (hg x).2), h]
    rfl
  | none =>
    rw [if_neg (by simp)]
    unfold findSummary at h ⊢
    show (db.dailySummaries ++ [fresh]).find? _ = _
    rw [find?_append_singleton, h, if_pos (summaryKey_of_eq hf hf')]
    rfl

theorem findSummary_upsertSummary_other (db : Db) {pid pid' : Nat} {d d' : Int}
    (g : DailySummary → DailySummary) (fresh : DailySummary)
    (hg : setsKey pid d g)
    (hf : fresh.personnel_id = pid) (hf' : fresh.date = d)
    (hne : ¬ (pid' = pid ∧ d' = d)) :
    findSummary (upsertSummary db pid d g fresh) pid' d' =
      findSummary db pid' d' := by
  unfold upsertSummary
  split
  · unfold findSummary
    show (updateFirst (summaryKey pid d) g db.dailySummaries).find? _ = _
    rw [find?_updateFirst_other _ _ _
      (fun x hx => by
        have hx' : x.personnel_id = pid ∧ x.date = d := by
          simp [summaryKey] at hx
          exact hx
        exact summaryKey_false_of_ne hx'.1 hx'.2 hne)
      (fun x _ => summaryKey_false_of_ne (hg x).1 (hg x).2 hne)]
  · unfold findSummary
    show (db.dailySummaries ++ [fresh]).find? _ = _
    rw [find?_append_singleton, if_neg
      (by rw [summaryKey_false_of_ne hf hf' hne]; simp)]
    cases (db.dailySummaries.find? (summaryKey pid' d')) <;> rfl

theorem upsertSummary_personnel (db : Db) (pid : Nat) (d : Int)
    (g : DailySummary → DailySummary) (fresh : DailySummary) :
    (upsertSummary db pid d g fresh).personnel = db.personnel := by
  unfold upsertSummary
  split <;> rfl

theorem upsertSummary_attendanceLogs (db : Db) (pid : Nat) (d : Int)
    (g : DailySummary → DailySummary) (fresh : DailySummary) :
    (upsertSummary db pid d g fresh).attendanceLogs = db.attendanceLogs := by
  unfold upsertSummary
  split <;> rfl

theorem upsertSummary_dailySummaries_of_none (db : Db) (pid : Nat) (d : Int)
    (g : DailySummary → DailySummary) (fresh : DailySummary)
    (h : findSummary db pid d = none) :
    (upsertSummary db pid d g fresh).dailySummaries =
      db.dailySummaries ++ [fresh] := by
  unfold upsertSummary
  rw [if_neg (by rw [h]; simp)]

/-! ### C2: holiday precedence over approved leave -/

/-- C2: for every (person, date) whose calendar marks the date as a holiday,
`_process_personnel_day` takes the holiday branch first, so the stored
summary has status `"Holiday"` — never `"OnLeave"` — even when an approved
leave request also covers the date. -/
theorem C2_holiday_beats_leave (db : Db) (p : Personnel) (wg : WorkGroup)
    (cal : Calendar) (d : Int) (hol : Holiday) (lr : LeaveRequest)
    (hhol : findHoliday db cal d = some hol)
    (hlv : findLeave db p d = some lr) :
    ∃ s, findSummary (processPersonnelDay db p wg cal d) p.id d = some s ∧
      s.status = "Holiday" ∧ s.status ≠ "OnLeave" := by
  unfold processPersonnelDay
  rw [hhol]
  show ∃ s, findSummary (createHolidaySummary db p d hol) p.id d = some s ∧
    s.status = "Holiday" ∧ s.status ≠ "OnLeave"
  refine ⟨_, findSummary_upsertSummary_self db p.id d _ _
    (fun s => ⟨rfl, rfl⟩) rfl rfl, ?_, ?_⟩
  · cases findSummary db p.id d <;> rfl
  · cases findSummary db p.id d <;> simp

/-- A calendar, holiday, leave type, approved full-day leave, work group and
person used to instantiate the precedence theorem: day 0 is simultaneously a
holiday and covered by the approved leave. -/
def exCalendar : Calendar where
  id := 1

def exHoliday : Holiday where
  id := 1
  date := 0
  name := "New Year"
  calendar_id := 1

def exLeaveTypeNoWork : LeaveType where
  id := 1
  name := "Annual"
  counts_as_work := false

def exLeaveDaily : LeaveRequest where
  id := 1
  personnel_id := 1
  leave_type := exLeaveTypeNoWork
  start_date := 0
  end_date := 0
  start_time := none
  end_time := none
  is_hourly := false
  status := "approved"

def exWorkGroup0 : WorkGroup where
  id := 1
  repetition_period_days := 7
  calendar := exCalendar
  start_date := 0

def exPersonnel1 : Personnel where
  id := 1
  start_date := -10
  end_date := none
  work_group := some exWorkGroup0
  is_active := true

def exDb2 : Db where
  personnel := [exPersonnel1]
  holidays := [exHoliday]
  leaveRequests := [exLeaveDaily]
  missionRequests := []
  workGroupShifts := []
  attendanceLogs := []
  dailySummaries := []

theorem C2_witness :
    ∃ s, findSummary (processPersonnelDay exDb2 exPersonnel1 exWorkGroup0
        exCalendar 0) 1 0 = some s ∧
      s.status = "Holiday" ∧ s.status ≠ "OnLeave" :=
  C2_holiday_beats_leave exDb2 exPersonnel1 exWorkGroup0 exCalendar 0
    exHoliday exLeaveDaily (by decide) (by decide)

/-! ### C10: early branches never touch the punch rows -/

theorem createHolidaySummary_attendanceLogs (db : Db) (p : Personnel)
    (d : Int) (hol : Holiday) :
    (createHolidaySummary db p d hol).attendanceLogs = db.attendanceLogs :=
  upsertSummary_attendanceLogs _ _ _ _ _

theorem createLeaveSummary_attendanceLogs (db : Db) (p : Personnel)
    (d : Int) (lr : LeaveRequest) :
    (createLeaveSummary db p d lr).attendanceLogs = db.attendanceLogs :=
  upsertSummary_attendanceLogs _ _ _ _ _

theorem createMissionSummary_attendanceLogs (db : Db) (p : Personnel)
    (d : Int) (mr : MissionRequest) :
    (createMissionSummary db p d mr).attendanceLogs = db.attendanceLogs :=
  upsertSummary_attendanceLogs _ _ _ _ _

theorem createNoShiftSummary_attendanceLogs (db : Db) (p : Personnel)
    (d : Int) :
    (createNoShiftSummary db p d).attendanceLogs = db.attendanceLogs :=
  upsertSummary_attendanceLogs _ _ _ _ _

/-- C10: punch logs have `is_processed` set only on the shift-with-punches
path — whenever the day resolves to Holiday, Leave, Mission or NoShift, the
attendance-log rows (their `is_processed` flags included) are unchanged,
because those branches return before the logs are fetched or marked. -/
theorem C10_early_branches_leave_logs (db : Db) (p : Personnel)
    (wg : WorkGroup) (cal : Calendar) (d : Int)
    (h : (findHoliday db cal d).isSome ∨ (findLeave db p d).isSome ∨
      (findMission db p d).isSome ∨ getShiftForDate db wg d = none) :
    (processPersonnelDay db p wg cal d).attendanceLogs = db.attendanceLogs := by
  unfold processPersonnelDay
  cases hh : findHoliday db cal d with
  | some hol => exact createHolidaySummary_attendanceLogs _ _ _ _
  | none =>
    cases hl : findLeave db p d with
    | some lr => exact createLeaveSummary_attendanceLogs _ _ _ _
    | none =>
      cases hm : findMission db p d with
      | some mr => exact createMissionSummary_attendanceLogs _ _ _ _
      | none =>
        cases hs : getShiftForDate db wg d with
        | none => exact createNoShiftSummary_attendanceLogs _ _ _
        | some sh =>
          rcases h with h | h | h | h <;>
            simp [hh, hl, hm, hs] at h

theorem C10_witness :
    ((findHoliday exDb2 exCalendar 0).isSome ∨
      (findLeave exDb2 exPersonnel1 0).isSome ∨
      (findMission exDb2 exPersonnel1 0).isSome ∨
      getShiftForDate exDb2 exWorkGroup0 0 = none) ∧
    (processPersonnelDay exDb2 exPersonnel1 exWorkGroup0 exCalendar
      0).attendanceLogs = exDb2.attendanceLogs :=
  ⟨Or.inl (by decide),
    C10_early_branches_leave_logs exDb2 exPersonnel1 exWorkGroup0 exCalendar 0
      (Or.inl (by decide))⟩

/-! ### C4: reprocessing a day as a holiday -/

/-- A previously computed working-day summary for person 1 on day 0, with
non-zero durations. -/
def exPriorSummary : DailySummary where
  personnel_id := 1
  date := 0
  shift_id := some 1
  presence_duration := 300
  tardiness_duration := 7
  overtime_duration := 0
  undertime_duration := 180
  absent := false
  status := "OK"
  first_entry_time := some { day := 0, tod := 540 }
  last_exit_time := some { day := 0, tod := 840 }
  expected_work_duration := 480
  notes := none

/-- `exDb2` with the prior summary already stored. -/
def exDb4 : Db where
  personnel := [exPersonnel1]
  holidays := [exHoliday]
  leaveRequests := []
  missionRequests := []
  workGroupShifts := []
  attendanceLogs := []
  dailySummaries := [exPriorSummary]

/-- C4 fails on the code: reprocessing an existing (person, date) summary as
a holiday keeps the old `presence_duration = 300` instead of zeroing it —
the `__dict__` overlay copies only the attributes the holiday constructor
passed (`personnel_id`, `date`, `status`, `notes`), and the claim's
`presence_duration = 0` is false at this input. -/
theorem C4_counterexample :
    (findSummary (createHolidaySummary exDb4 exPersonnel1 0 exHoliday) 1 0).map
        (fun s => (s.status, s.presence_duration, s.tardiness_duration,
          s.undertime_duration, s.expected_work_duration)) =
      some ("Holiday", 300, 7, 180, 480) ∧ (300 : Int) ≠ 0 := by
  constructor
  · decide
  · decide

/-- C4 amended: for every (person, date) that already has a daily summary,
reprocessing the day as a holiday overlays exactly the constructor-passed
fields — `personnel_id`, `date`, `status := "Holiday"` and
`notes := "Holiday: " ++ name` — while every other field, the duration
fields included, retains the previous record's value. -/
theorem C4_amended_holiday_overlay (db : Db) (p : Personnel) (d : Int)
    (hol : Holiday) (s : DailySummary) (h : findSummary db p.id d = some s) :
    findSummary (createHolidaySummary db p d hol) p.id d =
      some { s with personnel_id := p.id, date := d, status := "Holiday",
                    notes := some ("Holiday: " ++ hol.name) } := by
  have hmain := findSummary_upsertSummary_self db p.id d
    (fun s => { s with
      personnel_id := p.id, date := d, status := "Holiday",
      notes := some ("Holiday: " ++ hol.name) })
    ({ defaultSummary p.id d with
      status := "Holiday", notes := some ("Holiday: " ++ hol.name) })
    (fun s => ⟨rfl, rfl⟩) rfl rfl
  rw [h] at hmain
  exact hmain

theorem C4_witness :
    findSummary exDb4 1 0 = some exPriorSummary ∧
    findSummary (createHolidaySummary exDb4 exPersonnel1 0 exHoliday) 1 0 =
      some { exPriorSummary with
        personnel_id := 1, date := 0, status := "Holiday",
        notes := some "Holiday: New Year" } :=
  ⟨by decide,
    C4_amended_holiday_overlay exDb4 exPersonnel1 0 exHoliday exPriorSummary
      (by decide)⟩

/-! ### C9: leave summary durations and work credit -/

/-- C9: for every leave request, the stored summary's `presence_duration`
equals the computed leave duration when the leave type counts as work and 0
otherwise, and `expected_work_duration` is always that computed duration:
`end_time − start_time` minutes (with status `"PartialLeave"`) for hourly
leave with both times present, else 480 (with status `"OnLeave"`) — in
particular for every full-day leave with no times. -/
theorem C9_leave_summary_durations (db : Db) (p : Personnel) (d : Int)
    (lr : LeaveRequest) :
    ∃ s, findSummary (createLeaveSummary db p d lr) p.id d = some s ∧
      s.presence_duration =
        (if lr.leave_type.counts_as_work then s.expected_work_duration
         else 0) ∧
      (∀ st et, lr.start_time = some st → lr.end_time = some et →
        lr.is_hourly = true → st ≤ et →
        s.expected_work_duration = (et : Int) - st ∧
        s.status = "PartialLeave") ∧
      ((lr.is_hourly = false ∨ lr.start_time = none ∨ lr.end_time = none) →
        s.expected_work_duration = 480 ∧ s.status = "OnLeave") := by
  refine ⟨_, findSummary_upsertSummary_self db p.id d _ _
    (fun s => ⟨rfl, rfl⟩) rfl rfl, ?_, ?_, ?_⟩
  · cases hdb : findSummary db p.id d <;>
      cases hw : lr.leave_type.counts_as_work <;>
      simp [createLeaveSummary, hw]
  · intro st et hst het hhr hle
    cases hdb : findSummary db p.id d <;>
      simp [createLeaveSummary, hst, het, hhr, timeDiffMinutes_of_le hle]
  · intro h
    rcases h with h | h | h <;>
      cases hdb : findSummary db p.id d <;>
      simp [createLeaveSummary, h]

/-- A 09:00–11:00 hourly leave with a non-work-counting type. -/
def exLeaveHourly : LeaveRequest :=
  { exLeaveDaily with
    start_time := some 540, end_time := some 660, is_hourly := true }

theorem C9_witness :
    (∃ s, findSummary (createLeaveSummary exDb2 exPersonnel1 0 exLeaveHourly)
        1 0 = some s ∧ s.expected_work_duration = 120 ∧
        s.presence_duration = 0 ∧ s.status = "PartialLeave") ∧
    (∃ s, findSummary (createLeaveSummary exDb2 exPersonnel1 0 exLeaveDaily)
        1 0 = some s ∧ s.expected_work_duration = 480 ∧
        s.presence_duration = 0 ∧ s.status = "OnLeave") := by
  constructor
  · obtain ⟨s, hs, hp, hh, hd⟩ :=
      C9_leave_summary_durations exDb2 exPersonnel1 0 exLeaveHourly
    have h2 := hh 540 660 rfl rfl rfl (by decide)
    exact ⟨s, hs, by rw [h2.1]; decide,
      by rw [hp, if_neg (by decide)], h2.2⟩
  · obtain ⟨s, hs, hp, hh, hd⟩ :=
      C9_leave_summary_durations exDb2 exPersonnel1 0 exLeaveDaily
    have h2 := hd (Or.inl rfl)
    exact ⟨s, hs, h2.1, by rw [hp, if_neg (by decide)], h2.2⟩

/-! ### C3: personnel without a work group -/

/-- An active person with no work group assigned. -/
def exPersonnelNoWg : Personnel where
  id := 1
  start_date := 0
  end_date := none
  work_group := none
  is_active := true

def exDb3 : Db where
  personnel := [exPersonnelNoWg]
  holidays := []
  leaveRequests := []
  missionRequests := []
  workGroupShifts := []
  attendanceLogs := []
  dailySummaries := []

def exReq3 : AttendanceProcessingRequest where
  start_date := 0
  end_date := 0
  personnel_ids := none
  force_reprocess := false

/-- C3 fails on the code: a selected active person with no work group does
contribute zero processed days, but the batch never appends anything to the
response's `warnings` list — the warning goes only to the logger — so the
returned `warnings` list is empty at this input, not a one-element list. -/
theorem C3_counterexample :
    (processAttendance exDb3 exReq3).1.warnings = [] ∧
    (processAttendance exDb3 exReq3).1.processed_days = 0 ∧
    (processAttendance exDb3 exReq3).2.2 =
      ["Personnel 1 has no work group assigned"] := by
  refine ⟨?_, ?_, ?_⟩ <;> decide

/-- C3 amended: each selected active person with no assigned work group
contributes zero processed days and a logger warning, leaving the database
unchanged; the batch response's `warnings` list itself is always empty — no
code path appends to it. -/
theorem C3_amended_no_work_group (db : Db) (p : Personnel) (s e : Int)
    (force : Bool) (h : p.work_group = none) :
    processPersonnelAttendance db p s e force =
      (db, 0, ["Personnel " ++ toString p.id ++ " has no work group assigned"]) ∧
    (∀ db' req, (processAttendance db' req).1.warnings = []) := by
  constructor
  · unfold processPersonnelAttendance
    rw [h]
  · intro db' req
    unfold processAttendance
    by_cases hpl : (selectPersonnel db' req.personnel_ids).isEmpty <;>
      simp [hpl]

theorem C3_witness :
    processPersonnelAttendance exDb3 exPersonnelNoWg 0 0 false =
      (exDb3, 0, ["Personnel 1 has no work group assigned"]) ∧
    (processAttendance exDb3 exReq3).1.warnings = [] := by
  have h := C3_amended_no_work_group exDb3 exPersonnelNoWg 0 0 false rfl
  exact ⟨by rw [h.1]; rfl, h.2 exDb3 exReq3⟩

/-! ### C5: idempotence of the batch under `force_reprocess = false` -/

theorem isSome_of_eq_some {α : Type} {o : Option α} {x : α} (h : o = some x) :
    o.isSome = true := by
  rw [h]
  rfl

/-- Every branch of `_process_personnel_day` upserts a summary for exactly
its own (person, date) key, so lookups for any other key are unchanged. -/
theorem findSummary_processPersonnelDay_other (db : Db) (p : Personnel)
    (wg : WorkGroup) (cal : Calendar) (d : Int) (pid' : Nat) (d' : Int)
    (hne : ¬ (pid' = p.id ∧ d' = d)) :
    findSummary (processPersonnelDay db p wg cal d) pid' d' =
      findSummary db pid' d' := by
  unfold processPersonnelDay
  cases findHoliday db cal d with
  | some hol =>
    exact findSummary_upsertSummary_other db _ _ (fun s => ⟨rfl, rfl⟩) rfl rfl hne
  | none =>
  cases findLeave db p d with
  | some lr =>
    exact findSummary_upsertSummary_other db _ _ (fun s => ⟨rfl, rfl⟩) rfl rfl hne
  | none =>
  cases findMission db p d with
  | some mr =>
    exact findSummary_upsertSummary_other db _ _ (fun s => ⟨rfl, rfl⟩) rfl rfl hne
  | none =>
  cases getShiftForDate db wg d with
  | none =>
    exact findSummary_upsertSummary_other db _ _ (fun s => ⟨rfl, rfl⟩) rfl rfl hne
  | some shift =>
    exact findSummary_upsertSummary_other db _ _ (fun s => ⟨rfl, rfl⟩) rfl rfl hne

/-- Every branch of `_process_personnel_day` leaves a summary for its own
(person, date) key. -/
theorem findSummary_processPersonnelDay_isSome (db : Db) (p : Personnel)
    (wg : WorkGroup) (cal : Calendar) (d : Int) :
    (findSummary (processPersonnelDay db p wg cal d) p.id d).isSome = true := by
  unfold processPersonnelDay
  cases findHoliday db cal d with
  | some hol =>
    exact isSome_of_eq_some
      (findSummary_upsertSummary_self db p.id d _ _ (fun s => ⟨rfl, rfl⟩) rfl rfl)
  | none =>
  cases findLeave db p d with
  | some lr =>
    exact isSome_of_eq_some
      (findSummary_upsertSummary_self db p.id d _ _ (fun s => ⟨rfl, rfl⟩) rfl rfl)
  | none =>
  cases findMission db p d with
  | some mr =>
    exact isSome_of_eq_some
      (findSummary_upsertSummary_self db p.id d _ _ (fun s => ⟨rfl, rfl⟩) rfl rfl)
  | none =>
  cases getShiftForDate db wg d with
  | none =>
    exact isSome_of_eq_some
      (findSummary_upsertSummary_self db p.id d _ _ (fun s => ⟨rfl, rfl⟩) rfl rfl)
  | some shift =>
    exact isSome_of_eq_some
      (findSummary_upsertSummary_self db p.id d _ _ (fun s => ⟨rfl, rfl⟩) rfl rfl)

theorem processPersonnelDay_personnel (db : Db) (p : Personnel)
    (wg : WorkGroup) (cal : Calendar) (d : Int) :
    (processPersonnelDay db p wg cal d).personnel = db.personnel := by
  unfold processPersonnelDay
  cases findHoliday db cal d with
  | some hol => exact upsertSummary_personnel _ _ _ _ _
  | none =>
  cases findLeave db p d with
  | some lr => exact upsertSummary_personnel _ _ _ _ _
  | none =>
  cases findMission db p d with
  | some mr => exact upsertSummary_personnel _ _ _ _ _
  | none =>
  cases getShiftForDate db wg d with
  | none => exact upsertSummary_personnel _ _ _ _ _
  | some shift => exact upsertSummary_personnel _ _ _ _ _

/-- The employment window test of the per-day loop, as a proposition. -/
def windowOk (p : Personnel) (d : Int) : Prop :=
  ¬ d < p.start_date ∧ afterEnd p d = false

theorem stepDay_preserves (p : Personnel) (wg : WorkGroup) (cal : Calendar)
    (acc : Db × Nat) (d0 : Int) (pid' : Nat) (d' : Int) (s : DailySummary)
    (h : findSummary acc.1 pid' d' = some s) :
    findSummary (stepDay p wg cal false acc d0).1 pid' d' = some s := by
  unfold stepDay
  split
  · exact h
  split
  · exact h
  split
  · exact h
  next hproc =>
    have hnone : findSummary acc.1 p.id d0 = none := by
      simp only [Bool.not_false, Bool.and_true] at hproc
      simpa using hproc
    by_cases hk : pid' = p.id ∧ d' = d0
    · rw [hk.1, hk.2] at h
      rw [h] at hnone
      exact absurd hnone (by simp)
    · show findSummary (processPersonnelDay acc.1 p wg cal d0) pid' d' = some s
      rw [findSummary_processPersonnelDay_other acc.1 p wg cal d0 pid' d' hk]
      exact h

theorem stepDay_covers (p : Personnel) (wg : WorkGroup) (cal : Calendar)
    (acc : Db × Nat) (d0 : Int) (hw : windowOk p d0) :
    (findSummary (stepDay p wg cal false acc d0).1 p.id d0).isSome = true := by
  unfold stepDay
  split
  · exact absurd (by assumption) hw.1
  split
  · exact absurd (by assumption) (by rw [hw.2]; simp)
  split
  next hsk =>
    simp only [Bool.not_false, Bool.and_true] at hsk
    exact hsk
  · exact findSummary_processPersonnelDay_isSome acc.1 p wg cal d0

theorem stepDay_skip (p : Personnel) (wg : WorkGroup) (cal : Calendar)
    (acc : Db × Nat) (d0 : Int)
    (h : windowOk p d0 → (findSummary acc.1 p.id d0).isSome = true) :
    stepDay p wg cal false acc d0 = acc := by
  unfold stepDay
  split
  · rfl
  split
  · rfl
  split
  · rfl
  next h1 h2 h3 =>
    exfalso
    apply h3
    simp only [Bool.not_false, Bool.and_true]
    exact h ⟨h1, by simpa using h2⟩

theorem stepDay_personnel (p : Personnel) (wg : WorkGroup) (cal : Calendar)
    (force : Bool) (acc : Db × Nat) (d0 : Int) :
    (stepDay p wg cal force acc d0).1.personnel = acc.1.personnel := by
  unfold stepDay
  split
  · rfl
  split
  · rfl
  split
  · rfl
  · exact processPersonnelDay_personnel acc.1 p wg cal d0

theorem foldDays_preserves (p : Personnel) (wg : WorkGroup) (cal : Calendar) :
    ∀ (ds : List Int) (acc : Db × Nat) (pid' : Nat) (d' : Int)
      (s : DailySummary), findSummary acc.1 pid' d' = some s →
      findSummary ((ds.foldl (stepDay p wg cal false) acc).1) pid' d' = some s
  | [], acc, pid', d', s, h => h
  | d0 :: ds, acc, pid', d', s, h =>
    foldDays_preserves p wg cal ds _ pid' d' s
      (stepDay_preserves p wg cal acc d0 pid' d' s h)

theorem foldDays_covers (p : Personnel) (wg : WorkGroup) (cal : Calendar) :
    ∀ (ds : List Int) (acc : Db × Nat) (d0 : Int), d0 ∈ ds → windowOk p d0 →
      (findSummary ((ds.foldl (stepDay p wg cal false) acc).1) p.id d0).isSome
        = true
  | [], acc, d0, hmem, _ => absurd hmem (by simp)
  | d1 :: ds, acc, d0, hmem, hw => by
    rcases List.mem_cons.mp hmem with h | h
    · subst h
      have h1 := stepDay_covers p wg cal acc d0 hw
      obtain ⟨s, hs⟩ := Option.isSome_iff_exists.mp h1
      exact isSome_of_eq_some
        (foldDays_preserves p wg cal ds _ p.id d0 s hs)
    · exact foldDays_covers p wg cal ds _ d0 h hw

theorem foldDays_skip (p : Personnel) (wg : WorkGroup) (cal : Calendar) :
    ∀ (ds : List Int) (acc : Db × Nat),
      (∀ d0 ∈ ds, windowOk p d0 → (findSummary acc.1 p.id d0).isSome = true) →
      ds.foldl (stepDay p wg cal false) acc = acc
  | [], acc, _ => rfl
  | d0 :: ds, acc, h => by
    have hstep : stepDay p wg cal false acc d0 = acc :=
      stepDay_skip p wg cal acc d0 (h d0 (by simp))
    show (ds.foldl (stepDay p wg cal false) (stepDay p wg cal false acc d0)) = acc
    rw [hstep]
    exact foldDays_skip p wg cal ds acc
      (fun d1 hm hw => h d1 (List.mem_cons_of_mem d0 hm) hw)

theorem foldDays_personnel (p : Personnel) (wg : WorkGroup) (cal : Calendar)
    (force : Bool) :
    ∀ (ds : List Int) (acc : Db × Nat),
      ((ds.foldl (stepDay p wg cal force) acc).1).personnel = acc.1.personnel
  | [], acc => rfl
  | d0 :: ds, acc => by
    show ((ds.foldl (stepDay p wg cal force)
      (stepDay p wg cal force acc d0)).1).personnel = acc.1.personnel
    rw [foldDays_personnel p wg cal force ds _,
      stepDay_personnel p wg cal force acc d0]

theorem processPersonnelAttendance_preserves (db : Db) (p : Personnel)
    (sd ed : Int) (pid' : Nat) (d' : Int) (s : DailySummary)
    (h : findSummary db pid' d' = some s) :
    findSummary (processPersonnelAttendance db p sd ed false).1 pid' d' =
      some s := by
  unfold processPersonnelAttendance
  cases p.work_group with
  | none => exact h
  | some wg => exact foldDays_preserves p wg wg.calendar _ (db, 0) pid' d' s h

theorem processPersonnelAttendance_covers (db : Db) (p : Personnel)
    (sd ed : Int) (wg : WorkGroup) (hwg : p.work_group = some wg)
    (d0 : Int) (hmem : d0 ∈ dateRange sd ed) (hw : windowOk p d0) :
    (findSummary (processPersonnelAttendance db p sd ed false).1 p.id
      d0).isSome = true := by
  unfold processPersonnelAttendance
  rw [hwg]
  exact foldDays_covers p wg wg.calendar _ (db, 0) d0 hmem hw

theorem processPersonnelAttendance_skip (db : Db) (p : Personnel)
    (sd ed : Int)
    (h : ∀ wg, p.work_group = some wg → ∀ d0 ∈ dateRange sd ed,
      windowOk p d0 → (findSummary db p.id d0).isSome = true) :
    (processPersonnelAttendance db p sd ed false).1 = db ∧
    (processPersonnelAttendance db p sd ed false).2.1 = 0 := by
  unfold processPersonnelAttendance
  cases hwg : p.work_group with
  | none => exact ⟨rfl, rfl⟩
  | some wg =>
    have hfold := foldDays_skip p wg wg.calendar (dateRange sd ed) (db, 0)
      (fun d0 hm hw => h wg hwg d0 hm hw)
    constructor
    · show ((dateRange sd ed).foldl (stepDay p wg wg.calendar false)
        (db, 0)).1 = db
      rw [hfold]
    · show ((dateRange sd ed).foldl (stepDay p wg wg.calendar false)
        (db, 0)).2 = 0
      rw [hfold]

theorem processPersonnelAttendance_personnel (db : Db) (p : Personnel)
    (sd ed : Int) (force : Bool) :
    (processPersonnelAttendance db p sd ed force).1.personnel =
      db.personnel := by
  unfold processPersonnelAttendance
  cases p.work_group with
  | none => rfl
  | some wg => exact foldDays_personnel p wg wg.calendar force _ (db, 0)

/-- The per-personnel accumulation step of `process_attendance`. -/
def batchStep (sd ed : Int) (force : Bool)
    (acc : Db × Nat × List String) (p : Personnel) : Db × Nat × List String :=
  let r1 := processPersonnelAttendance acc.1 p sd ed force
  (r1.1, acc.2.1 + r1.2.1, acc.2.2 ++ r1.2.2)

theorem foldBatch_preserves (sd ed : Int) :
    ∀ (ps : List Personnel) (acc : Db × Nat × List String) (pid' : Nat)
      (d' : Int) (s : DailySummary), findSummary acc.1 pid' d' = some s →
      findSummary ((ps.foldl (batchStep sd ed false) acc).1) pid' d' = some s
  | [], acc, pid', d', s, h => h
  | p0 :: ps, acc, pid', d', s, h =>
    foldBatch_preserves sd ed ps _ pid' d' s
      (processPersonnelAttendance_preserves acc.1 p0 sd ed pid' d' s h)

theorem foldBatch_personnel (sd ed : Int) (force : Bool) :
    ∀ (ps : List Personnel) (acc : Db × Nat × List String),
      ((ps.foldl (batchStep sd ed force) acc).1).personnel = acc.1.personnel
  | [], acc => rfl
  | p0 :: ps, acc => by
    show ((ps.foldl (batchStep sd ed force)
      (batchStep sd ed force acc p0)).1).personnel = acc.1.personnel
    rw [foldBatch_personnel sd ed force ps _]
    exact processPersonnelAttendance_personnel acc.1 p0 sd ed force

theorem foldBatch_covers (sd ed : Int) :
    ∀ (ps : List Personnel) (acc : Db × Nat × List String) (p : Personnel),
      p ∈ ps → ∀ wg, p.work_group = some wg → ∀ d0 ∈ dateRange sd ed,
      windowOk p d0 →
      (findSummary ((ps.foldl (batchStep sd ed false) acc).1) p.id
        d0).isSome = true
  | [], acc, p, hmem, _, _, _, _, _ => absurd hmem (by simp)
  | p0 :: ps, acc, p, hmem, wg, hwg, d0, hd0, hw => by
    rcases List.mem_cons.mp hmem with h | h
    · subst h
      have h1 := processPersonnelAttendance_covers acc.1 p sd ed wg hwg d0
        hd0 hw
      obtain ⟨s, hs⟩ := Option.isSome_iff_exists.mp h1
      exact isSome_of_eq_some (foldBatch_preserves sd ed ps _ p.id d0 s hs)
    · exact foldBatch_covers sd ed ps _ p h wg hwg d0 hd0 hw

theorem foldBatch_skip (sd ed : Int) :
    ∀ (ps : List Personnel) (acc : Db × Nat × List String),
      (∀ p ∈ ps, ∀ wg, p.work_group = some wg → ∀ d0 ∈ dateRange sd ed,
        windowOk p d0 → (findSummary acc.1 p.id d0).isSome = true) →
      ((ps.foldl (batchStep sd ed false) acc).1 = acc.1 ∧
        (ps.foldl (batchStep sd ed false) acc).2.1 = acc.2.1)
  | [], acc, _ => ⟨rfl, rfl⟩
  | p0 :: ps, acc, h => by
    have hskip := processPersonnelAttendance_skip acc.1 p0 sd ed
      (fun wg hwg d0 hm hw => h p0 (by simp) wg hwg d0 hm hw)
    have hstep1 : (batchStep sd ed false acc p0).1 = acc.1 := hskip.1
    have hstep2 : (batchStep sd ed false acc p0).2.1 = acc.2.1 := by
      show acc.2.1 + (processPersonnelAttendance acc.1 p0 sd ed false).2.1 =
        acc.2.1
      rw [hskip.2, Nat.add_zero]
    have ih := foldBatch_skip sd ed ps (batchStep sd ed false acc p0)
      (fun p hm wg hwg d0 hm0 hw => by
        rw [hstep1]
        exact h p (List.mem_cons_of_mem p0 hm) wg hwg d0 hm0 hw)
    show ((ps.foldl (batchStep sd ed false)
        (batchStep sd ed false acc p0)).1 = acc.1 ∧
      (ps.foldl (batchStep sd ed false)
        (batchStep sd ed false acc p0)).2.1 = acc.2.1)
    rw [ih.1, ih.2, hstep1, hstep2]
    exact ⟨rfl, rfl⟩

/-- `process_attendance`, with its two let bindings spelled out. -/
theorem processAttendance_eq (db : Db) (req : AttendanceProcessingRequest) :
    processAttendance db req =
      if (selectPersonnel db req.personnel_ids).isEmpty then
        ({ processed_days := 0, processed_personnel := 0,
           errors := ["No active personnel found for processing"],
           warnings := [] }, db, [])
      else
        ((fun r =>
          ({ processed_days := r.2.1,
             processed_personnel := (selectPersonnel db req.personnel_ids).length,
             errors := [], warnings := [] }, r.1, r.2.2))
          ((selectPersonnel db req.personnel_ids).foldl
            (batchStep req.start_date req.end_date req.force_reprocess)
            (db, 0, []))) := rfl

theorem selectPersonnel_congr (db1 db2 : Db) (ids : Option (List Nat))
    (h : db1.personnel = db2.personnel) :
    selectPersonnel db1 ids = selectPersonnel db2 ids := by
  unfold selectPersonnel
  cases ids with
  | none => rw [h]
  | some l => rw [h]

/-- C5: with `force_reprocess = false` a batch run never touches an
already-stored (person, date) summary, and running the same batch twice
leaves the state of the first run unchanged while the second run processes
zero days. -/
theorem C5_skip_if_processed_idempotent (db : Db)
    (req : AttendanceProcessingRequest) (hf : req.force_reprocess = false) :
    (∀ pid d s, findSummary db pid d = some s →
      findSummary (processAttendance db req).2.1 pid d = some s) ∧
    (processAttendance (processAttendance db req).2.1 req).2.1 =
      (processAttendance db req).2.1 ∧
    (processAttendance (processAttendance db req).2.1 req).1.processed_days
      = 0 := by
  cases hemp : (selectPersonnel db req.personnel_ids).isEmpty with
  | true =>
    have h1 : (processAttendance db req).2.1 = db := by
      rw [processAttendance_eq, if_pos hemp]
    rw [h1]
    refine ⟨fun pid d s h => h, ?_, ?_⟩
    · rw [processAttendance_eq, if_pos hemp]
    · rw [processAttendance_eq, if_pos hemp]
  | false =>
    have hrun1 : (processAttendance db req).2.1 =
        ((selectPersonnel db req.personnel_ids).foldl
          (batchStep req.start_date req.end_date false) (db, 0, [])).1 := by
      rw [processAttendance_eq, hf, if_neg (by rw [hemp]; simp)]
    have hpers : ((selectPersonnel db req.personnel_ids).foldl
        (batchStep req.start_date req.end_date false)
        (db, 0, [])).1.personnel = db.personnel :=
      foldBatch_personnel req.start_date req.end_date false _ (db, 0, [])
    have hsel2 : selectPersonnel ((selectPersonnel db req.personnel_ids).foldl
          (batchStep req.start_date req.end_date false) (db, 0, [])).1
        req.personnel_ids = selectPersonnel db req.personnel_ids :=
      selectPersonnel_congr _ _ _ hpers
    have hskip := foldBatch_skip req.start_date req.end_date
      (selectPersonnel db req.personnel_ids)
      (((selectPersonnel db req.personnel_ids).foldl
        (batchStep req.start_date req.end_date false) (db, 0, [])).1, 0, [])
      (fun p hm wg hwg d0 hm0 hw =>
        foldBatch_covers req.start_date req.end_date _ (db, 0, []) p hm wg
          hwg d0 hm0 hw)
    have hrun2a : (processAttendance ((selectPersonnel db
          req.personnel_ids).foldl
          (batchStep req.start_date req.end_date false) (db, 0, [])).1
          req).2.1 =
        ((selectPersonnel db req.personnel_ids).foldl
          (batchStep req.start_date req.end_date false)
          (((selectPersonnel db req.personnel_ids).foldl
            (batchStep req.start_date req.end_date false)
            (db, 0, [])).1, 0, [])).1 := by
      rw [processAttendance_eq, hf, hsel2, if_neg (by rw [hemp]; simp)]
    have hrun2b : (processAttendance ((selectPersonnel db
          req.personnel_ids).foldl
          (batchStep req.start_date req.end_date false) (db, 0, [])).1
          req).1.processed_days =
        ((selectPersonnel db req.personnel_ids).foldl
          (batchStep req.start_date req.end_date false)
          (((selectPersonnel db req.personnel_ids).foldl
            (batchStep req.start_date req.end_date false)
            (db, 0, [])).1, 0, [])).2.1 := by
      rw [processAttendance_eq, hf, hsel2, if_neg (by rw [hemp]; simp)]
    refine ⟨fun pid d s h => ?_, ?_, ?_⟩
    · rw [hrun1]
      exact foldBatch_preserves req.start_date req.end_date _ (db, 0, [])
        pid d s h
    · rw [hrun1, hrun2a]
      exact hskip.1
    · rw [hrun1, hrun2b]
      exact hskip.2

/-- A work day punched in and out, to exercise the idempotence theorem on a
state where the first run really stores a summary. -/
def exDb5 : Db where
  personnel := [exPersonnel1]
  holidays := []
  leaveRequests := []
  missionRequests := []
  workGroupShifts :=
    [{ id := 1, work_group_id := 1, day_of_cycle := 1, shift := exShift }]
  attendanceLogs :=
    [{ id := 1, personnel_id := 1, timestamp := { day := 0, tod := 540 },
       is_processed := false }]
  dailySummaries := []

def exReq5 : AttendanceProcessingRequest where
  start_date := 0
  end_date := 0
  personnel_ids := none
  force_reprocess := false

theorem C5_witness :
    exReq5.force_reprocess = false ∧
    (processAttendance (processAttendance exDb5 exReq5).2.1 exReq5).2.1 =
      (processAttendance exDb5 exReq5).2.1 ∧
    (processAttendance (processAttendance exDb5 exReq5).2.1
      exReq5).1.processed_days = 0 ∧
    (processAttendance exDb5 exReq5).1.processed_days = 1 :=
  ⟨rfl, (C5_skip_if_processed_idempotent exDb5 exReq5 rfl).2.1,
    (C5_skip_if_processed_idempotent exDb5 exReq5 rfl).2.2, by decide⟩

end Attendance
